import Mathlib

/-!
Verification development for the nwo-backend dispatch/presence/settlement
service (src/app.py).

The database tables declared in run_sql_setup (lawyers, wallets,
case_requests, transactions, ratings, mpesa_webhooks) are embedded as lists
of rows inside a single DB state.  SQL FLOAT columns are modelled as exact
rationals, nullable columns as Option, timestamps as natural numbers.
Each Flask handler becomes a pure function from the DB state (plus the
request body) to a response, the successor DB state, and the ordered list
of externally visible effects (committed inserts, Socket.IO emits), in the
order the handler performs them.  Python truthiness of request fields
(None, 0 and "" are falsy) is modelled explicitly.

The SELECT in dispatch_request orders by rating DESC NULLS LAST with no
further sort key; rows with equal ratings are returned by PostgreSQL in an
unspecified order, which we model deterministically as the stored row
order (a stable insertion sort on the rating key).
-/

namespace NwoBackend

/-- A row of the lawyers table (providers). -/
structure Lawyer where
  id : Nat
  name : String
  rating : Option ℚ
  is_online : Bool
  last_active : Option Nat
  user_id : Option Nat
deriving DecidableEq

/-- A row of the case_requests table. -/
structure CaseRequest where
  id : Nat
  user_id : Option Nat
  case_type : Option String
  latitude : Option ℚ
  longitude : Option ℚ
  status : String
  assigned_lawyer : Option Nat
deriving DecidableEq

/-- A row of the wallets table. -/
structure Wallet where
  id : Nat
  user_id : Option Nat
  role : String
  balance : ℚ
deriving DecidableEq

/-- A row of the transactions table. -/
structure Txn where
  from_wallet : Option Nat
  to_wallet : Option Nat
  amount : ℚ
  txn_type : String
  status : String
deriving DecidableEq

/-- A row of the ratings table. -/
structure RatingRow where
  user_id : Nat
  lawyer_id : Nat
  stars : Nat
  comment : String
deriving DecidableEq

/-- The full database state. The mpesa_webhooks relation stores the
json.dumps serialization of each audited payload. -/
structure DB where
  lawyers : List Lawyer
  case_requests : List CaseRequest
  next_case_id : Nat
  wallets : List Wallet
  transactions : List Txn
  ratings : List RatingRow
  mpesa_webhooks : List String
deriving DecidableEq

/-- Externally visible effects a handler performs, in program order. -/
inductive Effect where
  | dbInsertCaseCommit (request_id : Nat)
  | emitCaseOffer (room : String) (request_id : Nat)
  | emitOfferAccepted (room : String) (request_id : Nat) (lawyer_id : Nat)
deriving DecidableEq

/-- Python truthiness of an optional integer field (None and 0 are falsy). -/
def truthyNat : Option Nat → Bool
  | none => false
  | some n => decide (n ≠ 0)

/-- Python truthiness of an optional string field (None and "" are falsy). -/
def truthyStr : Option String → Bool
  | none => false
  | some s => decide (s ≠ "")

/-- Python str() of an optional integer, as used in f-string room names. -/
def pyStr : Option Nat → String
  | none => "None"
  | some n => toString n

/-- The comparison realised by ORDER BY rating DESC NULLS LAST: non-null
ratings first in descending order, null ratings last. -/
def ratingDescLe (a b : Lawyer) : Bool :=
  match a.rating, b.rating with
  | some x, some y => decide (y ≤ x)
  | some _, none => true
  | none, some _ => false
  | none, none => true

/-- Propositional form of ratingDescLe, used as the sort relation. -/
def RatingDesc (a b : Lawyer) : Prop := ratingDescLe a b = true

instance : DecidableRel RatingDesc := fun a b =>
  inferInstanceAs (Decidable (ratingDescLe a b = true))

/-- Response of POST /api/dispatch/request: either a 400 validation error
or 200 with the new request id and the offered (lawyer_id, user_id) pairs. -/
inductive DispatchResult where
  | badRequest (error : String)
  | ok (request_id : Nat) (offered : List (Nat × Option Nat))
deriving DecidableEq

/-- Response of POST /api/dispatch/request_id/accept: 400 validation
error, 404 unknown lawyer, or 200 with the literal response fields. -/
inductive AcceptResult where
  | badRequest (error : String)
  | notFound (error : String)
  | ok (status : String) (request_id : Nat) (lawyer_id : Nat)
deriving DecidableEq

/-- Handler dispatch_request of src/app.py: validate client_id and
case_type (Python truthiness), insert and commit the case_requests row,
select the online lawyers ordered by rating DESC NULLS LAST limited to 10,
then emit one case_offer per candidate to its lawyer room. -/
def dispatch_request (db : DB) (client_id : Option Nat) (case_type : Option String)
    (lat lng : Option ℚ) : DispatchResult × DB × List Effect :=
  if truthyNat client_id && truthyStr case_type then
    let req_id := db.next_case_id
    let row : CaseRequest :=
      { id := req_id, user_id := client_id, case_type := case_type,
        latitude := lat, longitude := lng, status := "searching",
        assigned_lawyer := none }
    let db1 : DB := { db with case_requests := db.case_requests ++ [row],
                              next_case_id := req_id + 1 }
    let candidates :=
      (List.insertionSort RatingDesc (db1.lawyers.filter (fun l => l.is_online))).take 10
    let offered := candidates.map (fun l => (l.id, l.user_id))
    let events := Effect.dbInsertCaseCommit req_id ::
      candidates.map (fun l => Effect.emitCaseOffer ("lawyer_" ++ pyStr l.user_id) req_id)
    (DispatchResult.ok req_id offered, db1, events)
  else
    (DispatchResult.badRequest ("client_id and case_type required"), db, [])

/-- Handler accept_offer of src/app.py: validate lawyer_user_id, look the
lawyer up by user_id (404 when absent), then run the unconditional
UPDATE case_requests SET status, assigned_lawyer WHERE id = request_id
RETURNING user_id, emit offer_accepted to the client room when the
returned user_id is truthy, and reply 200 accepted in every case. -/
def accept_offer (db : DB) (request_id : Nat) (lawyer_user_id : Option Nat) :
    AcceptResult × DB × List Effect :=
  if truthyNat lawyer_user_id then
    match (db.lawyers.filter (fun l => l.user_id == lawyer_user_id)).head? with
    | none => (AcceptResult.notFound ("lawyer not found"), db, [])
    | some lw =>
      let lawyer_id := lw.id
      let updated := db.case_requests.map (fun c =>
        if c.id == request_id then
          { c with status := "accepted", assigned_lawyer := some lawyer_id }
        else c)
      -- RETURNING user_id: the update leaves user_id unchanged, so the
      -- returned value is the stored user_id of the matched row, if any.
      let res := ((db.case_requests.filter (fun c => c.id == request_id)).head?).map
        (fun c => c.user_id)
      let db1 : DB := { db with case_requests := updated }
      let events :=
        match res with
        | some (some uid) =>
          if uid ≠ 0 then
            [Effect.emitOfferAccepted ("client_" ++ toString uid) request_id lawyer_id]
          else []
        | _ => []
      (AcceptResult.ok ("accepted") request_id lawyer_id, db1, events)
  else
    (AcceptResult.badRequest ("lawyer_user_id required"), db, [])

/-- An arbitrary JSON document, represented by its json.dumps serialization. -/
structure JsonDoc where
  dump : String
deriving DecidableEq

/-- Python json.dumps applied to the result of request.get_json(silent=True):
a parse failure yields None, serialized as the string null. -/
def jdumps : Option JsonDoc → String
  | none => "null"
  | some j => j.dump

/-- Response of POST /api/mpesa/webhook. -/
structure WebhookResp where
  http_status : Nat
  ResultCode : Nat
  ResultDesc : String
deriving DecidableEq

/-- Handler mpesa_webhook of src/app.py: parse the body with
request.get_json(silent=True) (None on malformed input), insert the
json.dumps of the result into mpesa_webhooks, commit, and acknowledge
with 200. There is no error path. -/
def mpesa_webhook (db : DB) (data : Option JsonDoc) : WebhookResp × DB :=
  ({ http_status := 200, ResultCode := 0, ResultDesc := "Accepted" },
   { db with mpesa_webhooks := db.mpesa_webhooks ++ [jdumps data] })

/-- A raw webhook request body at the HTTP boundary: either a body that is
valid JSON, carrying the document it parses to, or a body that is not
valid JSON, carrying its raw text. -/
inductive RawBody where
  | jsonOf (j : JsonDoc)
  | malformed (raw : String)
deriving DecidableEq

/-- Flask's request.get_json with silent=True: the parsed document for a
valid JSON body, None (here none) for a malformed one. -/
def get_json_silent : RawBody → Option JsonDoc
  | RawBody.jsonOf j => some j
  | RawBody.malformed _ => none

/-- Handler mpesa_webhook viewed from the HTTP boundary: parse the raw
body with request.get_json(silent=True), then proceed exactly as the
source handler does on the parse result. -/
def mpesa_webhook_raw (db : DB) (body : RawBody) : WebhookResp × DB :=
  mpesa_webhook db (get_json_silent body)

/-- The fixed commission rate of the Settlement Engine (spec section 4.4). -/
def commissionRate : ℚ := 20 / 100

/-- Modelled from the spec: the Settlement Engine handler POST /case/complete
(spec sections 4.4 and 6) is absent from src/app.py, which only declares the
wallets and transactions schema it operates on.  Following the spec words:
look the case, the platform wallet and the provider's wallet up (not-found
is a no-state-change failure); then, atomically as a unit, set
CaseRequest.status = completed, compute commission = amount * 0.20 and
payout = amount - commission, credit the platform wallet by the commission,
credit the provider's wallet by the payout, and append two success
Transaction rows (payout, commission). -/
def complete (db : DB) (case_id : Nat) (amount : ℚ) (provider_user_id : Nat) :
    Option DB :=
  match (db.case_requests.filter (fun c => c.id == case_id)).head?,
        (db.wallets.filter (fun w => w.role == "platform")).head?,
        (db.wallets.filter (fun w => w.user_id == some provider_user_id)).head? with
  | some _, some pw, some vw =>
    let commission := amount * commissionRate
    let payout := amount - commission
    let cases1 := db.case_requests.map (fun c =>
      if c.id == case_id then { c with status := "completed" } else c)
    let ws1 := db.wallets.map (fun w =>
      if w.role == "platform" then { w with balance := w.balance + commission } else w)
    let ws2 := ws1.map (fun w =>
      if w.user_id == some provider_user_id then
        { w with balance := w.balance + payout }
      else w)
    some { db with
      case_requests := cases1, wallets := ws2,
      transactions := db.transactions ++
        [ { from_wallet := some pw.id, to_wallet := some vw.id, amount := payout,
            txn_type := "payout", status := "success" },
          { from_wallet := none, to_wallet := some pw.id, amount := commission,
            txn_type := "commission", status := "success" } ] }
  | _, _, _ => none

/-- The arithmetic mean of the stars of all rating rows for one lawyer,
recomputed from the full rating log. -/
def meanStars (rs : List RatingRow) (lawyer_id : Nat) : ℚ :=
  let rows := rs.filter (fun r => r.lawyer_id == lawyer_id)
  ((rows.map (fun r => (r.stars : ℚ))).sum) / (rows.length : ℚ)

/-- Modelled from the spec: the rating handler POST /rate (spec sections 4.5
and 6) is absent from src/app.py, which only declares the ratings schema.
Following the spec words: insert the Rating row, then recompute
Provider.rating as the arithmetic mean over all Rating rows for that
provider, from the authoritative rating log. -/
def rate (db : DB) (user_id lawyer_id stars : Nat) (comment : String) : DB :=
  let ratings1 := db.ratings ++
    [{ user_id := user_id, lawyer_id := lawyer_id, stars := stars, comment := comment }]
  { db with ratings := ratings1,
            lawyers := db.lawyers.map (fun l =>
              if l.id == lawyer_id then
                { l with rating := some (meanStars ratings1 lawyer_id) }
              else l) }

/-- The ranking order written in the spec (section 4.1): rating descending
with nulls last, ties broken by most-recent last_active descending. -/
def specRankLe (a b : Lawyer) : Bool :=
  if a.rating = b.rating then
    match a.last_active, b.last_active with
    | some x, some y => decide (y ≤ x)
    | some _, none => true
    | none, some _ => false
    | none, none => true
  else ratingDescLe a b

/-- Propositional form of specRankLe. -/
def SpecRank (a b : Lawyer) : Prop := specRankLe a b = true

instance : DecidableRel SpecRank := fun a b =>
  inferInstanceAs (Decidable (specRankLe a b = true))

/-- The rankedReachable sequence exactly as the spec words it (section 4.1):
the reachable providers ordered by rating descending, ties broken by
most-recent last_active descending, truncated to the given limit.  This
definition follows the spec, not the source; it is compared against the
candidate list dispatch_request actually produces. -/
def rankedReachableSpec (db : DB) (limit : Nat) : List Lawyer :=
  (List.insertionSort SpecRank (db.lawyers.filter (fun l => l.is_online))).take limit

/-- The key the code's SELECT actually realises, on position-tagged rows:
rating descending with nulls last, and rows whose ratings tie (ratingDescLe
holds both ways) ordered by their stored position, smaller index first. -/
def lexRankLe (a b : Nat × Lawyer) : Bool :=
  if ratingDescLe a.2 b.2 && ratingDescLe b.2 a.2 then decide (a.1 ≤ b.1)
  else ratingDescLe a.2 b.2

/-- Propositional form of lexRankLe. -/
def LexRank (a b : Nat × Lawyer) : Prop := lexRankLe a b = true

instance : DecidableRel LexRank := fun a b =>
  inferInstanceAs (Decidable (lexRankLe a b = true))

/-- The ranking named by the amended C3: the online lawyers ordered by
rating descending with nulls last, equal ratings kept in stored order
(smaller stored index first), truncated to the given limit.  Built by
tagging each online row with its stored position and sorting by the
total order lexRankLe, so the result is independent of any sorting
algorithm's tie behavior; it is then proved equal to the candidate list
dispatch_request computes. -/
def rankedByRatingThenStored (db : DB) (limit : Nat) : List Lawyer :=
  ((List.insertionSort LexRank
      (List.enumFrom 0 (db.lawyers.filter (fun l => l.is_online)))).map
    Prod.snd).take limit

/-! Helper lemmas shared by several claims. -/

/-- Filtering commutes with mapping a row transformer that leaves the
filtered predicate invariant. -/
theorem filter_map_pred_inv {α : Type} (f : α → α) (p : α → Bool)
    (hf : ∀ a, p (f a) = p a) (l : List α) :
    (l.map f).filter p = (l.filter p).map f := by
  rw [List.filter_map]
  have hpf : (p ∘ f) = p := funext hf
  rw [hpf]

/-- The head? of a filter after such a map is the mapped head? of the filter. -/
theorem head?_filter_map_pred_inv {α : Type} (f : α → α) (p : α → Bool)
    (hf : ∀ a, p (f a) = p a) (l : List α) :
    ((l.map f).filter p).head? = ((l.filter p).head?).map f := by
  rw [filter_map_pred_inv f p hf l, List.head?_map]

/-- A successful head? of a filter exhibits a member satisfying the predicate. -/
theorem head?_filter_spec {α : Type} {p : α → Bool} {l : List α} {a : α}
    (h : (l.filter p).head? = some a) : a ∈ l ∧ p a = true := by
  have hm : a ∈ l.filter p := by
    cases hl : l.filter p with
    | nil => rw [hl] at h; cases h
    | cons x xs =>
      rw [hl] at h
      simp only [List.head?_cons, Option.some.injEq] at h
      subst h
      exact List.mem_cons_self x xs
  exact ⟨(List.mem_filter.mp hm).1, (List.mem_filter.mp hm).2⟩

/-- Mapping a guarded row update over rows none of which match the guard
is the identity. -/
theorem map_if_not_matched {α : Type} (f : α → α) (p : α → Bool) (l : List α)
    (h : ∀ a ∈ l, p a = false) :
    (l.map (fun a => if p a then f a else a)) = l := by
  have := List.map_congr_left (l := l)
    (f := fun a => if p a then f a else a) (g := id) (fun a ha => by
      simp [h a ha])
  simpa using this

/-- Every index produced by enumFrom is at least the starting index. -/
theorem enumFrom_fst_le {α : Type} :
    ∀ (n : Nat) (l : List α) (p : Nat × α), p ∈ List.enumFrom n l → n ≤ p.1
  | _, [], p, h => absurd h (List.not_mem_nil p)
  | n, a :: l, p, h => by
    rcases List.mem_cons.mp h with rfl | h2
    · exact Nat.le_refl n
    · exact Nat.le_trans (Nat.le_succ n) (enumFrom_fst_le (n + 1) l p h2)

/-- Inserting a row whose index is below every index present commutes with
forgetting the indices: on ties lexRankLe defers to the indices, and the
inserted index always wins, which is exactly what plain orderedInsert on
the untagged rows does. -/
theorem map_snd_orderedInsert (a : Nat × Lawyer) :
    ∀ (L : List (Nat × Lawyer)), (∀ p ∈ L, a.1 ≤ p.1) →
      (List.orderedInsert LexRank a L).map Prod.snd
        = List.orderedInsert RatingDesc a.2 (L.map Prod.snd)
  | [], _ => rfl
  | b :: L, h => by
    have hiff : LexRank a b ↔ RatingDesc a.2 b.2 := by
      unfold LexRank lexRankLe RatingDesc
      by_cases ht : (ratingDescLe a.2 b.2 && ratingDescLe b.2 a.2) = true
      · have h1 : a.1 ≤ b.1 := h b (List.mem_cons_self b L)
        have h2 : ratingDescLe a.2 b.2 = true := by
          rcases (Bool.and_eq_true _ _).mp ht with ⟨hx, _⟩
          exact hx
        simp [ht, h1, h2]
      · simp [ht]
    by_cases hl : LexRank a b
    · have hr : RatingDesc a.2 b.2 := hiff.mp hl
      simp [List.orderedInsert, hl, hr]
    · have hr : ¬ RatingDesc a.2 b.2 := fun hx => hl (hiff.mpr hx)
      simp only [List.orderedInsert, if_neg hl, if_neg hr, List.map_cons]
      rw [map_snd_orderedInsert a L (fun p hp => h p (List.mem_cons_of_mem b hp))]

/-- Stability of the embedded sort: sorting position-tagged rows by
lexRankLe and forgetting the tags gives the same list as the stable
insertion sort on ratingDescLe alone. -/
theorem map_snd_insertionSort_enumFrom :
    ∀ (l : List Lawyer) (k : Nat),
      (List.insertionSort LexRank (List.enumFrom k l)).map Prod.snd
        = List.insertionSort RatingDesc l
  | [], _ => rfl
  | a :: l, k => by
    have hmem : ∀ p ∈ List.insertionSort LexRank (List.enumFrom (k + 1) l),
        k ≤ p.1 := by
      intro p hp
      have hp2 : p ∈ List.enumFrom (k + 1) l :=
        (List.perm_insertionSort LexRank _).mem_iff.mp hp
      exact Nat.le_trans (Nat.le_succ k) (enumFrom_fst_le (k + 1) l p hp2)
    calc (List.insertionSort LexRank (List.enumFrom k (a :: l))).map Prod.snd
        = (List.orderedInsert LexRank (k, a)
            (List.insertionSort LexRank (List.enumFrom (k + 1) l))).map Prod.snd := by
          simp [List.insertionSort]
      _ = List.orderedInsert RatingDesc a
            ((List.insertionSort LexRank (List.enumFrom (k + 1) l)).map Prod.snd) :=
          map_snd_orderedInsert (k, a) _ hmem
      _ = List.orderedInsert RatingDesc a (List.insertionSort RatingDesc l) := by
          rw [map_snd_insertionSort_enumFrom l (k + 1)]
      _ = List.insertionSort RatingDesc (a :: l) := by simp [List.insertionSort]

/-- The amended-claim ranking coincides with the candidate list the code's
SELECT realises: the stable sort by rating alone. -/
theorem rankedByRatingThenStored_eq (db : DB) (limit : Nat) :
    rankedByRatingThenStored db limit
      = (List.insertionSort RatingDesc
          (db.lawyers.filter (fun l => l.is_online))).take limit := by
  unfold rankedByRatingThenStored
  rw [map_snd_insertionSort_enumFrom]

instance : IsTotal Lawyer RatingDesc where
  total a b := by
    unfold RatingDesc ratingDescLe
    rcases ha : a.rating with _ | x <;> rcases hb : b.rating with _ | y <;> simp
    exact le_total y x

instance : IsTrans Lawyer RatingDesc where
  trans a b c hab hbc := by
    unfold RatingDesc ratingDescLe at *
    rcases ha : a.rating with _ | x <;> rcases hb : b.rating with _ | y <;>
      rcases hc : c.rating with _ | z <;> simp_all
    exact le_trans hbc hab

/-! Concrete database states used by witnesses and counterexamples. -/

/-- An empty database. -/
def dbEmpty : DB :=
  { lawyers := [], case_requests := [], next_case_id := 1, wallets := [],
    transactions := [], ratings := [], mpesa_webhooks := [] }

/-- A database whose single lawyer is offline. -/
def dbC8 : DB :=
  { lawyers := [{ id := 1, name := "A", rating := some 3, is_online := false,
                  last_active := some 10, user_id := some 11 }],
    case_requests := [], next_case_id := 5, wallets := [], transactions := [],
    ratings := [], mpesa_webhooks := [] }

/-- A database with one lawyer and no case requests. -/
def dbC10 : DB :=
  { lawyers := [{ id := 4, name := "D", rating := some 2, is_online := true,
                  last_active := some 10, user_id := some 40 }],
    case_requests := [], next_case_id := 1, wallets := [], transactions := [],
    ratings := [], mpesa_webhooks := [] }

/-- C5 fails on the code as stated: posting the malformed body garbage
stores the constant string null (json.dumps of the None that
request.get_json(silent=True) returns), not the raw payload — the raw
bytes are discarded on exactly the malformed subset the claim singles
out. -/
theorem mpesa_webhook_drops_malformed_raw :
    ((mpesa_webhook_raw dbEmpty (RawBody.malformed ("garbage"))).2.mpesa_webhooks
      = [("null" : String)]) ∧
    (("null" : String) ≠ "garbage") :=
  ⟨rfl, by decide⟩

/-- C5 (amended): every raw body posted to the payments webhook, malformed
bodies included, makes the handler append exactly one audit row holding
json.dumps of the request.get_json(silent=True) parse result — the
document's dump for valid JSON, the constant string null for a malformed
body, whose raw bytes are discarded — and reply with the 200 success
acknowledgment; the handler has no error path. -/
theorem mpesa_webhook_always_acks_and_audits (db : DB) (body : RawBody) :
    (mpesa_webhook_raw db body).1.http_status = 200 ∧
    (mpesa_webhook_raw db body).1.ResultCode = 0 ∧
    (mpesa_webhook_raw db body).1.ResultDesc = "Accepted" ∧
    (mpesa_webhook_raw db body).2.mpesa_webhooks
      = db.mpesa_webhooks ++ [jdumps (get_json_silent body)] ∧
    (∀ raw, body = RawBody.malformed raw →
      jdumps (get_json_silent body) = "null") ∧
    (mpesa_webhook_raw db body).2.mpesa_webhooks.length
      = db.mpesa_webhooks.length + 1 := by
  refine ⟨rfl, rfl, rfl, rfl, ?_, ?_⟩
  · intro raw hb
    subst hb
    rfl
  · simp [mpesa_webhook_raw, mpesa_webhook]

/-- Witness for C5 (amended) at a concrete input: a malformed body is
acknowledged with 200 and audited as the string null. -/
theorem mpesa_webhook_always_acks_and_audits_witness :
    ((mpesa_webhook_raw dbEmpty (RawBody.malformed ("junk"))).1.http_status = 200) ∧
    ((mpesa_webhook_raw dbEmpty (RawBody.malformed ("junk"))).2.mpesa_webhooks
      = dbEmpty.mpesa_webhooks ++ [jdumps (get_json_silent (RawBody.malformed ("junk")))]) ∧
    (jdumps (get_json_silent (RawBody.malformed ("junk"))) = "null") :=
  ⟨(mpesa_webhook_always_acks_and_audits dbEmpty (RawBody.malformed ("junk"))).1,
   (mpesa_webhook_always_acks_and_audits dbEmpty (RawBody.malformed ("junk"))).2.2.2.1,
   (mpesa_webhook_always_acks_and_audits dbEmpty
       (RawBody.malformed ("junk"))).2.2.2.2.1 ("junk") rfl⟩

/-- C9: a dispatch request body missing client_id or case_type receives the
400 validation error, with the database unchanged and no effect emitted. -/
theorem dispatch_request_missing_field_400 (db : DB) (client_id : Option Nat)
    (case_type : Option String) (lat lng : Option ℚ)
    (h : client_id = none ∨ case_type = none) :
    dispatch_request db client_id case_type lat lng
      = (DispatchResult.badRequest ("client_id and case_type required"), db, []) := by
  rcases h with rfl | rfl
  · simp [dispatch_request, truthyNat]
  · simp [dispatch_request, truthyStr]

/-- Witness for C9 at a concrete input: client_id missing. -/
theorem dispatch_request_missing_field_400_witness :
    dispatch_request dbEmpty none (some ("land")) none none
      = (DispatchResult.badRequest ("client_id and case_type required"), dbEmpty, []) :=
  dispatch_request_missing_field_400 dbEmpty none (some ("land")) none none (Or.inl rfl)

/-- C6: an accept call whose provider user-id has no row in the lawyers
registry returns the 404 lawyer-not-found failure, mutates nothing and
emits nothing. -/
theorem accept_offer_unknown_provider_404 (db : DB) (request_id luid : Nat)
    (hl : luid ≠ 0)
    (hnone : db.lawyers.filter (fun l => l.user_id == some luid) = []) :
    accept_offer db request_id (some luid)
      = (AcceptResult.notFound ("lawyer not found"), db, []) := by
  simp [accept_offer, truthyNat, hl, hnone]

/-- Witness for C6 at a concrete input: empty registry. -/
theorem accept_offer_unknown_provider_404_witness :
    accept_offer dbEmpty 1 (some 9)
      = (AcceptResult.notFound ("lawyer not found"), dbEmpty, []) :=
  accept_offer_unknown_provider_404 dbEmpty 1 9 (by decide) rfl

/-- C10: an accept call whose provider exists but whose request_id matches
no case row still replies 200 with status accepted and the lawyer id,
changes no case row, and emits no offer_accepted notification. -/
theorem accept_offer_missing_case_silent_200 (db : DB) (request_id luid : Nat)
    (lw : Lawyer) (hl : luid ≠ 0)
    (hfound : (db.lawyers.filter (fun l => l.user_id == some luid)).head? = some lw)
    (hnocase : db.case_requests.filter (fun c => c.id == request_id) = []) :
    accept_offer db request_id (some luid)
      = (AcceptResult.ok ("accepted") request_id lw.id, db, []) := by
  have hall : ∀ c ∈ db.case_requests, ¬ (c.id = request_id) := by
    intro c hc
    have := List.filter_eq_nil_iff.mp hnocase c hc
    simpa using this
  have hallb : ∀ c ∈ db.case_requests, (c.id == request_id) = false := by
    intro c hc
    simpa using hall c hc
  have hupd : db.case_requests.map (fun c =>
      if c.id == request_id then
        { c with status := "accepted", assigned_lawyer := some lw.id }
      else c) = db.case_requests :=
    map_if_not_matched _ _ _ hallb
  have hupd2 : db.case_requests.map (fun c =>
      if c.id = request_id then
        { c with status := "accepted", assigned_lawyer := some lw.id }
      else c) = db.case_requests := by
    have h1 := List.map_congr_left (l := db.case_requests)
      (f := fun c => if c.id = request_id then
        { c with status := "accepted", assigned_lawyer := some lw.id }
      else c)
      (g := id) (fun c hc => if_neg (hall c hc))
    simpa using h1
  have hfind : db.case_requests.find? (fun c => c.id == request_id) = none :=
    List.find?_eq_none.mpr (fun c hc => by simpa using hall c hc)
  simp [accept_offer, truthyNat, hl, hfound, hupd, hupd2, hnocase, hfind]

/-- Witness for C10 at a concrete input: lawyer user 40 accepts the
nonexistent request 99. -/
theorem accept_offer_missing_case_silent_200_witness :
    accept_offer dbC10 99 (some 40)
      = (AcceptResult.ok ("accepted") 99 4, dbC10, []) :=
  accept_offer_missing_case_silent_200 dbC10 99 40
    { id := 4, name := "D", rating := some 2, is_online := true,
      last_active := some 10, user_id := some 40 }
    (by decide) rfl rfl

/-- C8: a dispatch call with valid inputs but no online lawyer succeeds,
persists the case request, and returns the empty offered list. -/
theorem dispatch_request_no_reachable_empty (db : DB) (cid : Nat) (ct : String)
    (lat lng : Option ℚ) (hcid : cid ≠ 0) (hct : ct ≠ "")
    (hno : db.lawyers.filter (fun l => l.is_online) = []) :
    dispatch_request db (some cid) (some ct) lat lng
      = (DispatchResult.ok db.next_case_id [],
         { db with
           case_requests := db.case_requests ++
             [{ id := db.next_case_id, user_id := some cid, case_type := some ct,
                latitude := lat, longitude := lng, status := "searching",
                assigned_lawyer := none }]
           next_case_id := db.next_case_id + 1 },
         [Effect.dbInsertCaseCommit db.next_case_id]) := by
  simp [dispatch_request, truthyNat, truthyStr, hcid, hct, hno]

/-- Witness for C8 at a concrete input: the only lawyer is offline. -/
theorem dispatch_request_no_reachable_empty_witness :
    dispatch_request dbC8 (some 7) (some ("land")) none none
      = (DispatchResult.ok dbC8.next_case_id [],
         { dbC8 with
           case_requests := dbC8.case_requests ++
             [{ id := dbC8.next_case_id, user_id := some 7, case_type := some ("land"),
                latitude := none, longitude := none, status := "searching",
                assigned_lawyer := none }]
           next_case_id := dbC8.next_case_id + 1 },
         [Effect.dbInsertCaseCommit dbC8.next_case_id]) :=
  dispatch_request_no_reachable_empty dbC8 7 ("land") none none
    (by decide) (by decide) rfl

/-- A database with one online lawyer, used by the C7 witness. -/
def dbC7 : DB :=
  { lawyers := [{ id := 3, name := "C", rating := some 5, is_online := true,
                  last_active := some 50, user_id := some 30 }],
    case_requests := [], next_case_id := 7, wallets := [], transactions := [],
    ratings := [], mpesa_webhooks := [] }

/-- C7: on a valid dispatch call the effect trace starts with the committed
insert of the case_requests row, and everything after it is a case_offer
emission for that very request: the request is persisted strictly before
any notification goes out. -/
theorem dispatch_request_persists_before_notifying (db : DB) (cid : Nat)
    (ct : String) (lat lng : Option ℚ) (hcid : cid ≠ 0) (hct : ct ≠ "") :
    ∃ rest, (dispatch_request db (some cid) (some ct) lat lng).2.2
        = Effect.dbInsertCaseCommit db.next_case_id :: rest ∧
      ∀ e ∈ rest, ∃ room, e = Effect.emitCaseOffer room db.next_case_id := by
  refine ⟨((List.insertionSort RatingDesc
      (db.lawyers.filter (fun l => l.is_online))).take 10).map
        (fun l => Effect.emitCaseOffer ("lawyer_" ++ pyStr l.user_id) db.next_case_id),
    ?_, ?_⟩
  · simp [dispatch_request, truthyNat, truthyStr, hcid, hct]
  · intro e he
    rcases List.mem_map.mp he with ⟨l, _, rfl⟩
    exact ⟨_, rfl⟩

/-- Witness for C7 at a concrete input: the trace of a valid dispatch on
dbC7 opens with the committed insert of request 7. -/
theorem dispatch_request_persists_before_notifying_witness :
    (dispatch_request dbC7 (some 5) (some ("land")) none none).2.2.head?
      = some (Effect.dbInsertCaseCommit 7) := by
  obtain ⟨rest, h1, _⟩ :=
    dispatch_request_persists_before_notifying dbC7 5 ("land") none none
      (by decide) (by decide)
  rw [h1]
  rfl

/-- A database with two online lawyers and one case request in status
searching, used to exercise the accept race. -/
def dbRace : DB :=
  { lawyers := [{ id := 1, name := "A", rating := some 4, is_online := true,
                  last_active := some 100, user_id := some 10 },
                { id := 2, name := "B", rating := some 4, is_online := true,
                  last_active := some 200, user_id := some 20 }],
    case_requests := [{ id := 1, user_id := some 5, case_type := some ("land"),
                        latitude := none, longitude := none, status := "searching",
                        assigned_lawyer := none }],
    next_case_id := 2, wallets := [], transactions := [], ratings := [],
    mpesa_webhooks := [] }

/-- C1 fails on the code: the UPDATE of accept_offer carries no
WHERE status = 'searching' condition and the handler has no
already_assigned reply at all, so when two distinct existing providers
accept the same request one after the other (either serialization of two
concurrent accepts), both callers are answered 200 accepted and the second
silently overwrites the first assignment. -/
theorem accept_offer_race_both_accept :
    (accept_offer dbRace 1 (some 10)).1 = AcceptResult.ok ("accepted") 1 1 ∧
    (accept_offer (accept_offer dbRace 1 (some 10)).2.1 1 (some 20)).1
      = AcceptResult.ok ("accepted") 1 2 ∧
    ((accept_offer (accept_offer dbRace 1 (some 10)).2.1 1 (some 20)).2.1.case_requests.map
        (fun c => c.assigned_lawyer)) = [some 2] := by
  refine ⟨rfl, rfl, rfl⟩

/-- A database with two online lawyers of equal rating whose stored order
disagrees with the last-active order: lawyer 1 (last_active 100) is stored
before lawyer 2 (last_active 200). -/
def dbTie : DB :=
  { lawyers := [{ id := 1, name := "A", rating := some 4, is_online := true,
                  last_active := some 100, user_id := some 11 },
                { id := 2, name := "B", rating := some 4, is_online := true,
                  last_active := some 200, user_id := some 22 }],
    case_requests := [], next_case_id := 1, wallets := [], transactions := [],
    ratings := [], mpesa_webhooks := [] }

/-- C3 fails on the code: the SELECT of dispatch_request orders by rating
DESC NULLS LAST only, with no last-active tie-break, so on dbTie the
offered list keeps the stored order (lawyer 1 before lawyer 2) while the
spec ranking (rating desc, tie by most-recent last_active desc) puts the
more recently active lawyer 2 first. -/
theorem dispatch_request_tiebreak_counterexample :
    (dispatch_request dbTie (some 5) (some ("land")) none none).1
      ≠ DispatchResult.ok dbTie.next_case_id
          ((rankedReachableSpec dbTie 10).map (fun l => (l.id, l.user_id))) := by
  decide

/-- C3 (amended): for every valid dispatch call the offered pairs are
exactly the image of rankedByRatingThenStored db 10 — the online lawyers
ordered by rating descending with nulls last, equal ratings kept in
stored order (smaller stored index first), truncated to the top 10 — so
with more than 10 online lawyers precisely the ten highest-ranked are
offered, and equal-rated lawyers are offered in stored order, not by
last-active; the ranking moreover is RatingDesc-sorted, has length
min 10 n, draws only online lawyers, and is a permutation of all online
lawyers when n is at most 10. -/
theorem dispatch_request_offers_top10_by_rating (db : DB) (cid : Nat)
    (ct : String) (lat lng : Option ℚ) (hcid : cid ≠ 0) (hct : ct ≠ "") :
    (dispatch_request db (some cid) (some ct) lat lng).1
      = DispatchResult.ok db.next_case_id
          ((rankedByRatingThenStored db 10).map (fun l => (l.id, l.user_id))) ∧
    List.Sorted RatingDesc (rankedByRatingThenStored db 10) ∧
    (rankedByRatingThenStored db 10).length
      = min 10 (db.lawyers.filter (fun l => l.is_online)).length ∧
    (∀ l ∈ rankedByRatingThenStored db 10, l.is_online = true ∧ l ∈ db.lawyers) ∧
    ((db.lawyers.filter (fun l => l.is_online)).length ≤ 10 →
      List.Perm (rankedByRatingThenStored db 10)
        (db.lawyers.filter (fun l => l.is_online))) := by
  rw [rankedByRatingThenStored_eq db 10]
  refine ⟨?_, ?_, ?_, ?_, ?_⟩
  · simp [dispatch_request, truthyNat, truthyStr, hcid, hct]
  · exact List.Pairwise.sublist (List.take_sublist 10 _)
      (List.sorted_insertionSort RatingDesc _)
  · simp [List.length_take, List.length_insertionSort]
  · intro l hl
    have h1 : l ∈ List.insertionSort RatingDesc
        (db.lawyers.filter (fun x => x.is_online)) := List.mem_of_mem_take hl
    have h2 : l ∈ db.lawyers.filter (fun x => x.is_online) :=
      (List.perm_insertionSort RatingDesc _).mem_iff.mp h1
    have h3 := List.mem_filter.mp h2
    exact ⟨h3.2, h3.1⟩
  · intro hle
    rw [List.take_of_length_le (by simpa [List.length_insertionSort] using hle)]
    exact List.perm_insertionSort RatingDesc _

/-- Witness for C3 (amended) at a concrete input: dbTie with valid fields,
where the pinned ranking keeps the equal-rated lawyers in stored order. -/
theorem dispatch_request_offers_top10_by_rating_witness :
    (5 ≠ 0) ∧ ("land" ≠ "") ∧
    ((dispatch_request dbTie (some 5) (some ("land")) none none).1
      = DispatchResult.ok dbTie.next_case_id
          ((rankedByRatingThenStored dbTie 10).map (fun l => (l.id, l.user_id))) ∧
    List.Sorted RatingDesc (rankedByRatingThenStored dbTie 10) ∧
    (rankedByRatingThenStored dbTie 10).length
      = min 10 (dbTie.lawyers.filter (fun l => l.is_online)).length ∧
    (∀ l ∈ rankedByRatingThenStored dbTie 10, l.is_online = true ∧ l ∈ dbTie.lawyers) ∧
    ((dbTie.lawyers.filter (fun l => l.is_online)).length ≤ 10 →
      List.Perm (rankedByRatingThenStored dbTie 10)
        (dbTie.lawyers.filter (fun l => l.is_online)))) ∧
    ((rankedByRatingThenStored dbTie 10).map (fun l => (l.id, l.user_id))
      = [(1, some 11), (2, some 22)]) :=
  ⟨by decide, by decide,
   dispatch_request_offers_top10_by_rating dbTie 5 ("land") none none
     (by decide) (by decide),
   by decide⟩

/-- The lawyers map inside rate leaves the id filter invariant. -/
theorem rate_pred_inv (L : Nat) (v : Option ℚ) :
    ∀ l : Lawyer, ((if l.id == L then { l with rating := v } else l).id == L)
      = (l.id == L) := by
  intro l
  by_cases h : (l.id == L) = true <;> simp [h]

/-- One rate call rewrites every lawyer row matching the rated id to carry
the freshly recomputed mean, leaving the row count unchanged. -/
theorem rate_rating_rows (db : DB) (u L s : Nat) (cm : String) :
    ((rate db u L s cm).lawyers.filter (fun l => l.id == L)).map (fun l => l.rating)
      = List.replicate (db.lawyers.filter (fun l => l.id == L)).length
          (some (meanStars (db.ratings ++
            [{ user_id := u, lawyer_id := L, stars := s, comment := cm }]) L)) := by
  simp only [rate]
  rw [filter_map_pred_inv _ _ (rate_pred_inv L _) db.lawyers, List.map_map]
  rw [List.map_congr_left (g := fun _ => some (meanStars (db.ratings ++
        [{ user_id := u, lawyer_id := L, stars := s, comment := cm }]) L))
      (fun l hl => by
        have hp := (List.mem_filter.mp hl).2
        simp [Function.comp, hp])]
  exact List.map_const' _ _

/-- One rate call leaves the number of lawyer rows matching the rated id
unchanged. -/
theorem rate_filter_length (db : DB) (u L s : Nat) (cm : String) :
    ((rate db u L s cm).lawyers.filter (fun l => l.id == L)).length
      = (db.lawyers.filter (fun l => l.id == L)).length := by
  simp only [rate]
  rw [filter_map_pred_inv _ _ (rate_pred_inv L _) db.lawyers, List.length_map]

/-- C4: ratings are recomputed from the full rating log: starting from a
database with no rating row for lawyer L, three rate calls with stars s1,
s2, s3 leave every lawyer row with id L carrying exactly the arithmetic
mean (s1 + s2 + s3) / 3; with stars 5, 3, 4 this is exactly 4. -/
theorem rate_recomputes_mean_from_log (db : DB) (L u1 u2 u3 s1 s2 s3 : Nat)
    (c1 c2 c3 : String)
    (h0 : db.ratings.filter (fun r => r.lawyer_id == L) = []) :
    (((rate (rate (rate db u1 L s1 c1) u2 L s2 c2) u3 L s3 c3).lawyers.filter
        (fun l => l.id == L)).map (fun l => l.rating))
      = (db.lawyers.filter (fun l => l.id == L)).map
          (fun _ => some (((s1 : ℚ) + s2 + s3) / 3)) := by
  have hr : (rate (rate db u1 L s1 c1) u2 L s2 c2).ratings
      = db.ratings ++ [{ user_id := u1, lawyer_id := L, stars := s1, comment := c1 }]
          ++ [{ user_id := u2, lawyer_id := L, stars := s2, comment := c2 }] := rfl
  have havg : meanStars (db.ratings
      ++ [{ user_id := u1, lawyer_id := L, stars := s1, comment := c1 }]
      ++ [{ user_id := u2, lawyer_id := L, stars := s2, comment := c2 }]
      ++ [{ user_id := u3, lawyer_id := L, stars := s3, comment := c3 }]) L
      = ((s1 : ℚ) + s2 + s3) / 3 := by
    unfold meanStars
    rw [List.filter_append, List.filter_append, List.filter_append, h0]
    simp
    ring
  rw [rate_rating_rows, rate_filter_length, rate_filter_length, hr, havg,
    List.map_const']

/-- A database with one lawyer and an empty rating log, for the C4 witness. -/
def dbRate : DB :=
  { lawyers := [{ id := 1, name := "P", rating := none, is_online := false,
                  last_active := none, user_id := some 100 }],
    case_requests := [], next_case_id := 1, wallets := [], transactions := [],
    ratings := [], mpesa_webhooks := [] }

/-- Witness for C4 at a concrete input: stars 5, 3, 4 give mean exactly 4. -/
theorem rate_recomputes_mean_from_log_witness :
    (dbRate.ratings.filter (fun r => r.lawyer_id == 1) = []) ∧
    ((((rate (rate (rate dbRate 7 1 5 ("good")) 8 1 3 ("meh")) 9 1 4 ("ok")).lawyers.filter
        (fun l => l.id == 1)).map (fun l => l.rating))
      = (dbRate.lawyers.filter (fun l => l.id == 1)).map
          (fun _ => some (((5 : ℚ) + 3 + 4) / 3))) ∧
    (((5 : ℚ) + 3 + 4) / 3 = 4) :=
  ⟨rfl,
   rate_recomputes_mean_from_log dbRate 1 7 8 9 5 3 4 ("good") ("meh") ("ok") rfl,
   by norm_num⟩

/-- C2: completing a case settles atomically: the matched case rows are set
to completed, the platform wallet is credited by commission =
amount * 0.20, the provider's wallet is credited by payout =
amount - commission, and exactly two success transaction rows (payout,
commission) are appended, whose amounts sum to the original amount. -/
theorem complete_settles_atomically (db : DB) (case_id : Nat) (amount : ℚ)
    (puid : Nat) (c : CaseRequest) (pw vw : Wallet)
    (hc : (db.case_requests.filter (fun r => r.id == case_id)).head? = some c)
    (hpw : (db.wallets.filter (fun w => w.role == "platform")).head? = some pw)
    (hvw : (db.wallets.filter (fun w => w.user_id == some puid)).head? = some vw)
    (hpw2 : pw.user_id ≠ some puid) (hvw2 : vw.role ≠ "platform") :
    ∃ db2, complete db case_id amount puid = some db2 ∧
      (db2.case_requests.filter (fun r => r.id == case_id)).map (fun r => r.status)
        = (db.case_requests.filter (fun r => r.id == case_id)).map
            (fun _ => ("completed" : String)) ∧
      (db2.wallets.filter (fun w => w.role == "platform")).head?
        = some { pw with balance := pw.balance + amount * commissionRate } ∧
      (db2.wallets.filter (fun w => w.user_id == some puid)).head?
        = some { vw with balance := vw.balance + (amount - amount * commissionRate) } ∧
      db2.transactions = db.transactions ++
        [ { from_wallet := some pw.id, to_wallet := some vw.id,
            amount := amount - amount * commissionRate,
            txn_type := "payout", status := "success" },
          { from_wallet := none, to_wallet := some pw.id,
            amount := amount * commissionRate,
            txn_type := "commission", status := "success" } ] ∧
      (amount - amount * commissionRate) + amount * commissionRate = amount := by
  have hpwp : (pw.role == "platform") = true := (head?_filter_spec hpw).2
  have hvwq : (vw.user_id == some puid) = true := (head?_filter_spec hvw).2
  have hfid : ∀ r : CaseRequest,
      ((if r.id == case_id then { r with status := ("completed") } else r).id == case_id)
        = (r.id == case_id) := by
    intro r; by_cases h : (r.id == case_id) = true <;> simp [h]
  have hg1role : ∀ w : Wallet,
      ((if w.role == "platform" then
          { w with balance := w.balance + amount * commissionRate }
        else w).role == "platform") = (w.role == "platform") := by
    intro w; by_cases h : (w.role == "platform") = true <;> simp [h]
  have hg2role : ∀ w : Wallet,
      ((if w.user_id == some puid then
          { w with balance := w.balance + (amount - amount * commissionRate) }
        else w).role == "platform") = (w.role == "platform") := by
    intro w; by_cases h : (w.user_id == some puid) = true <;> simp [h]
  have hg1uid : ∀ w : Wallet,
      ((if w.role == "platform" then
          { w with balance := w.balance + amount * commissionRate }
        else w).user_id == some puid) = (w.user_id == some puid) := by
    intro w; by_cases h : (w.role == "platform") = true <;> simp [h]
  have hg2uid : ∀ w : Wallet,
      ((if w.user_id == some puid then
          { w with balance := w.balance + (amount - amount * commissionRate) }
        else w).user_id == some puid) = (w.user_id == some puid) := by
    intro w; by_cases h : (w.user_id == some puid) = true <;> simp [h]
  refine ⟨{ db with
      case_requests := db.case_requests.map (fun r =>
        if r.id == case_id then { r with status := ("completed") } else r)
      wallets := (db.wallets.map (fun w =>
        if w.role == "platform" then
          { w with balance := w.balance + amount * commissionRate }
        else w)).map (fun w =>
          if w.user_id == some puid then
            { w with balance := w.balance + (amount - amount * commissionRate) }
          else w)
      transactions := db.transactions ++
        [ { from_wallet := some pw.id, to_wallet := some vw.id,
            amount := amount - amount * commissionRate,
            txn_type := "payout", status := "success" },
          { from_wallet := none, to_wallet := some pw.id,
            amount := amount * commissionRate,
            txn_type := "commission", status := "success" } ] },
    ?_, ?_, ?_, ?_, rfl, by ring⟩
  · simp only [complete, hc, hpw, hvw]
  · rw [filter_map_pred_inv _ _ hfid db.case_requests, List.map_map]
    rw [List.map_congr_left (g := fun _ => ("completed" : String))
        (fun r hr => by
          have hp := (List.mem_filter.mp hr).2
          simp [Function.comp, hp])]
  · have hpwp2 : pw.role = "platform" := by simpa using hpwp
    rw [head?_filter_map_pred_inv _ _ hg2role (db.wallets.map _),
      head?_filter_map_pred_inv _ _ hg1role db.wallets, hpw]
    simp [hpwp2, hpw2]
  · have hvwq2 : vw.user_id = some puid := by simpa using hvwq
    rw [head?_filter_map_pred_inv _ _ hg2uid (db.wallets.map _),
      head?_filter_map_pred_inv _ _ hg1uid db.wallets, hvw]
    simp [hvwq2, hvw2]

/-- The platform wallet row of the C2 witness database. -/
def pwRow : Wallet := { id := 1, user_id := none, role := "platform", balance := 0 }

/-- The provider wallet row of the C2 witness database. -/
def vwRow : Wallet := { id := 2, user_id := some 10, role := "provider", balance := 0 }

/-- The accepted case row of the C2 witness database. -/
def caseRow : CaseRequest :=
  { id := 1, user_id := some 5, case_type := some ("land"), latitude := none,
    longitude := none, status := "accepted", assigned_lawyer := some 1 }

/-- The C2 witness database: one accepted case, a platform wallet and a
provider wallet, both empty. -/
def dbSettle : DB :=
  { lawyers := [], case_requests := [caseRow], next_case_id := 2,
    wallets := [pwRow, vwRow], transactions := [], ratings := [],
    mpesa_webhooks := [] }

/-- Witness for C2 at a concrete input: completing case 1 with amount 1000
for provider user 10 credits the platform wallet by 200 and the provider
wallet by 800. -/
theorem complete_settles_atomically_witness :
    ((dbSettle.case_requests.filter (fun r => r.id == 1)).head? = some caseRow) ∧
    ((dbSettle.wallets.filter (fun w => w.role == "platform")).head? = some pwRow) ∧
    ((dbSettle.wallets.filter (fun w => w.user_id == some 10)).head? = some vwRow) ∧
    (pwRow.user_id ≠ some 10) ∧ (vwRow.role ≠ "platform") ∧
    (∃ db2, complete dbSettle 1 1000 10 = some db2 ∧
      (db2.case_requests.filter (fun r => r.id == 1)).map (fun r => r.status)
        = (dbSettle.case_requests.filter (fun r => r.id == 1)).map
            (fun _ => ("completed" : String)) ∧
      (db2.wallets.filter (fun w => w.role == "platform")).head?
        = some { pwRow with balance := pwRow.balance + 1000 * commissionRate } ∧
      (db2.wallets.filter (fun w => w.user_id == some 10)).head?
        = some { vwRow with balance := vwRow.balance + (1000 - 1000 * commissionRate) } ∧
      db2.transactions = dbSettle.transactions ++
        [ { from_wallet := some pwRow.id, to_wallet := some vwRow.id,
            amount := 1000 - 1000 * commissionRate,
            txn_type := "payout", status := "success" },
          { from_wallet := none, to_wallet := some pwRow.id,
            amount := 1000 * commissionRate,
            txn_type := "commission", status := "success" } ] ∧
      ((1000 : ℚ) - 1000 * commissionRate) + 1000 * commissionRate = 1000) ∧
    (pwRow.balance + 1000 * commissionRate = 200) ∧
    (vwRow.balance + ((1000 : ℚ) - 1000 * commissionRate) = 800) :=
  ⟨rfl, rfl, rfl, by decide, by decide,
   complete_settles_atomically dbSettle 1 1000 10 caseRow pwRow vwRow rfl rfl rfl
     (by decide) (by decide),
   by norm_num [pwRow, commissionRate],
   by norm_num [vwRow, commissionRate]⟩

end NwoBackend
